import Mathlib

/-!
Verification of the personal-reminder script (`src/main.py`).

The script has two layers that the claims talk about:

* a flat-file record store (`save_data_to_csv`, `load_data_from_csv`),
  which persists a list of string-valued dictionaries as CSV rows; and
* an orchestration pipeline (`main`): two generation calls producing a
  candidate JSON text, `json.loads` with a silent fallback to `[]`, a
  write to the store, and a branch on whether a "react" response contains
  the substring `NEED_DATA_UPDATE`.

Embedding conventions:

* A Python `dict[str, str]` is an insertion-ordered association list
  `List (String × String)`; real dicts have unique keys, so theorems that
  need uniqueness take a `Nodup` hypothesis on the key list.
* A CSV file's content is abstracted to its row structure
  `List (List String)` (header row first).  The `csv` module's
  quoting/escaping is a bijection between a row of cells and its text
  line, so rows are the faithful unit; one quirk is kept because the code
  can hit it: a row with zero cells is written as a blank line, and
  `csv.DictReader` skips blank lines (`while row == []`), so zero-cell
  rows vanish on read.  The reader model zips the header with each row,
  which agrees with `dict(zip(fieldnames, row))`; the `restkey`/`restval`
  padding for ragged rows is dropped because `csv.DictWriter` only ever
  produces rows of exactly header length.
* The filesystem slot for one path is `Option CsvFile`
  (`none` = path does not exist, mirroring `os.path.exists`).
* Functions that mutate the file and may raise return the file state
  after the call together with `Option` of the raised error, so a raise
  part-way through the write loop keeps the rows already written.
* `json.loads` output is modelled by an inductive `Json`; the parser
  itself is external library code, so pipeline definitions take an
  abstract `json_loads : String → Option Json` (`none` = JSONDecodeError).
-/

namespace PersonalReminder

/-- A Python string-valued dict, in insertion order. -/
abbrev Rec := List (String × String)

/-- Abstract CSV file content: one entry per row, one cell per field. -/
abbrev CsvFile := List (List String)

/-- `d.get(k)`: first binding of `k` (Python dicts have unique keys). -/
def Rec.get (r : Rec) (k : String) : Option String :=
  (r.find? (fun p => p.1 == k)).map (·.2)

/-- `d.keys()`, in insertion order. -/
def Rec.keys (r : Rec) : List String := r.map (·.1)

/-- `csv.DictWriter._dict_to_list`: raise `ValueError` when the row dict
has a key outside `fieldnames` (`extrasaction='raise'`, the default);
otherwise project the dict onto `fieldnames`, filling missing keys with
the default `restval` of `''`. -/
def dictToRow (fieldnames : List String) (r : Rec) : Except String (List String) :=
  if r.keys.any (fun k => !(fieldnames.contains k)) then
    .error "ValueError: dict contains fields not in fieldnames"
  else
    .ok (fieldnames.map (fun k => (r.get k).getD ""))

/-- The `for row in data: writer.writerow(row)` loop of
`save_data_to_csv`: rows are appended one at a time, and an exception
part-way through leaves the earlier rows written. -/
def writeRowsLoop (fieldnames : List String) (content : CsvFile) :
    List Rec → CsvFile × Option String
  | [] => (content, none)
  | r :: rs =>
    match dictToRow fieldnames r with
    | .error e => (content, some e)
    | .ok row => writeRowsLoop fieldnames (content ++ [row]) rs

/-- `save_data_to_csv(data, file_path)` acting on the file state at
`file_path`.  Returns the state after the call and the raised exception,
if any.  Mirrors the source: empty `data` returns immediately;
`fieldnames = data[0].keys()`; the file is opened in append mode (created
when absent); the header is written only when the file did not exist;
then each record is written in order. -/
def save_data_to_csv (data : List Rec) (file : Option CsvFile) :
    Option CsvFile × Option String :=
  match data with
  | [] => (file, none)
  | first :: _ =>
    let fieldnames := first.keys
    let opened := file.getD []
    let afterHeader := if file.isSome then opened else opened ++ [fieldnames]
    let res := writeRowsLoop fieldnames afterHeader data
    (some res.1, res.2)

/-- `load_data_from_csv(file_path)` acting on the file state: `[]` when
the path does not exist; otherwise `list(csv.DictReader(f))` — the first
row becomes the field names, blank rows are skipped, and every other row
becomes the dict `dict(zip(fieldnames, row))`.  Reading leaves the file
unchanged; the unchanged state is returned to make that explicit. -/
def load_data_from_csv (file : Option CsvFile) : List Rec × Option CsvFile :=
  match file with
  | none => ([], none)
  | some content =>
    match content with
    | [] => ([], some content)
    | header :: rest =>
      (((rest.filter (fun row => !row.isEmpty)).map (fun row => header.zip row)),
        some (header :: rest))

/-- A value `json.loads` can return (numbers collapsed to integers; no
claim depends on float formatting). -/
inductive Json where
  | null
  | bool (b : Bool)
  | num (n : Int)
  | str (s : String)
  | arr (elems : List Json)
  | obj (entries : List (String × Json))

/-- Python exceptions that `save_data_to_csv` can raise when `main` hands
it a raw `json.loads` result instead of a list of string dicts. -/
inductive PyError where
  | typeError
  | keyError
  | attributeError
  | valueError
  | indexError
deriving DecidableEq

/-- Python truthiness of a `json.loads` result, as tested by
`if not data: return`. -/
def Json.truthy : Json → Bool
  | .null => false
  | .bool b => b
  | .num n => n != 0
  | .str s => !(s == "")
  | .arr elems => !elems.isEmpty
  | .obj entries => !entries.isEmpty

/-- `data[0]` on a `json.loads` result: list indexing, string indexing (a
one-character string), `KeyError` for dicts (JSON object keys are strings,
never the integer key `0`), `TypeError` for everything else. -/
def pyGetItemZero : Json → Except PyError Json
  | .arr [] => .error .indexError
  | .arr (x :: _) => .ok x
  | .str s =>
    match s.data with
    | [] => .error .indexError
    | c :: _ => .ok (.str (String.mk [c]))
  | .obj _ => .error .keyError
  | _ => .error .typeError

/-- `x.keys()`: only dicts have it; anything else raises
`AttributeError`. -/
def pyKeys : Json → Except PyError (List String)
  | .obj entries => .ok (entries.map (·.1))
  | _ => .error .attributeError

/-- `writer.writerow(row)` when `row` is an arbitrary `json.loads` value:
`rowdict.keys()` raises `AttributeError` on a non-dict; a key outside
`fieldnames` raises `ValueError`; otherwise the dict is projected onto
`fieldnames` with `restval ''` for missing keys, string values written
as-is, `None` as an empty cell (a `csv` writer special case), and any
other value through the `csv` writer's stringification `cellStr`
(library code, kept abstract). -/
def dictToRowDyn (cellStr : Json → String) (fieldnames : List String) :
    Json → Except PyError (List String)
  | .obj entries =>
    if (entries.map (·.1)).any (fun k => !(fieldnames.contains k)) then
      .error .valueError
    else
      .ok (fieldnames.map (fun k =>
        match (entries.find? (fun p => p.1 == k)).map (·.2) with
        | none => ""
        | some Json.null => ""
        | some (Json.str s) => s
        | some v => cellStr v))
  | _ => .error .attributeError

/-- The write loop of `save_data_to_csv` over raw `json.loads` elements. -/
def writeRowsLoopDyn (cellStr : Json → String) (fieldnames : List String)
    (content : CsvFile) : List Json → CsvFile × Option PyError
  | [] => (content, none)
  | r :: rs =>
    match dictToRowDyn cellStr fieldnames r with
    | .error e => (content, some e)
    | .ok row => writeRowsLoopDyn cellStr fieldnames (content ++ [row]) rs

/-- `save_data_to_csv(data)` as `main` actually calls it: `data` is the raw
`json.loads` result, so every dynamic-typing step is modelled.
`fieldnames = data[0].keys()` runs before the file is opened, so an
exception there leaves the file untouched.  The final catch-all is
unreachable: `data[0].keys()` succeeds only when `data[0]` is a dict, and
only lists and strings support `data[0]` — a string's first element is
again a string, which has no `keys`. -/
def save_data_to_csv_dyn (cellStr : Json → String) (data : Json)
    (file : Option CsvFile) : Option CsvFile × Option PyError :=
  if !data.truthy then (file, none)
  else
    match (pyGetItemZero data).bind pyKeys with
    | .error e => (file, some e)
    | .ok fieldnames =>
      match data with
      | .arr elems =>
        let opened := file.getD []
        let afterHeader := if file.isSome then opened else opened ++ [fieldnames]
        let res := writeRowsLoopDyn cellStr fieldnames afterHeader elems
        (some res.1, res.2)
      | _ => (file, some .typeError)

/-- Is the value a JSON array (a Python list)? -/
def Json.isArr : Json → Bool
  | .arr _ => true
  | _ => false

/-- The row `csv.DictWriter` produces for record `r`: the record's values
in `fieldnames` order, an empty cell for each missing key. -/
def rowOf (fieldnames : List String) (r : Rec) : List String :=
  fieldnames.map (fun k => (r.get k).getD "")

/-- Steps 3–4 of `main`: parse the second generation call's output with
`json.loads`, falling back to the empty list on `JSONDecodeError`.
The parser is external library code, so it is a parameter
(`none` = raises `JSONDecodeError`). -/
def parse_activities (json_loads : String → Option Json) (json_str : String) : Json :=
  match json_loads json_str with
  | some v => v
  | none => .arr []

/-- Substring search over character lists: does `needle` occur inside the
second argument? -/
def charsContain (needle : List Char) : List Char → Bool
  | [] => needle.isEmpty
  | c :: t => needle.isPrefixOf (c :: t) || charsContain needle t

/-- Python's `needle in hay` for strings: substring containment. -/
def strContains (hay needle : String) : Bool :=
  charsContain needle.data hay.data

/-- The JSON shape `json.dumps` receives in Branch A: the loaded table as
a list of string-valued dicts. -/
def recordsToJson (rows : List Rec) : Json :=
  .arr (rows.map (fun r => .obj (r.map (fun p => (p.1, Json.str p.2)))))

/-- The two branches of `main` after the react call. -/
inductive Branch where
  | A
  | B
deriving DecidableEq

/-- Steps 7–10 of `main`: branch on whether the react response contains
`NEED_DATA_UPDATE`, and record which data the chosen branch embeds in the
summarization prompt — Branch A reloads the persisted table, Branch B
reuses the in-memory batch from the extraction run. -/
def query_pipeline (react_response : String) (current_memory : Json)
    (fs : Option CsvFile) : Branch × Json :=
  if strContains react_response "NEED_DATA_UPDATE" then
    (.A, recordsToJson (load_data_from_csv fs).1)
  else
    (.B, current_memory)

/-! Helper lemmas about the record store. -/

lemma dictToRow_ok (fns : List String) (r : Rec) (h : ∀ k ∈ r.keys, k ∈ fns) :
    dictToRow fns r = .ok (rowOf fns r) := by
  have hany : (r.keys.any fun k => !(fns.contains k)) = false := by
    rw [List.any_eq_false]
    intro k hk
    simp [h k hk]
  simp [dictToRow, hany, rowOf]
  exact h

lemma dictToRow_ok_keys {fns : List String} {r : Rec} {row : List String}
    (h : dictToRow fns r = .ok row) : ∀ k ∈ r.keys, k ∈ fns := by
  intro k hk
  by_contra hk'
  have hany : (r.keys.any fun k2 => !(fns.contains k2)) = true :=
    List.any_eq_true.mpr ⟨k, hk, by simp [hk']⟩
  rw [dictToRow, if_pos hany] at h
  exact Except.noConfusion h

lemma writeRowsLoop_ok (fns : List String) (rs : List Rec)
    (h : ∀ r ∈ rs, ∀ k ∈ Rec.keys r, k ∈ fns) :
    ∀ content, writeRowsLoop fns content rs = (content ++ rs.map (rowOf fns), none) := by
  induction rs with
  | nil => intro content; simp [writeRowsLoop]
  | cons r rs ih =>
    intro content
    simp only [writeRowsLoop, dictToRow_ok fns r (h r (List.mem_cons_self r rs))]
    rw [ih (fun r' hr' => h r' (List.mem_cons_of_mem r hr'))]
    simp

lemma writeRowsLoop_err (fns : List String) (rs : List Rec)
    (h : ∃ r ∈ rs, ∃ k ∈ Rec.keys r, k ∉ fns) :
    ∀ content, (writeRowsLoop fns content rs).2 ≠ none := by
  induction rs with
  | nil => simp at h
  | cons r rs ih =>
    intro content
    rcases h with ⟨r', hr', k, hk, hk'⟩
    cases hd : dictToRow fns r with
    | error e => simp [writeRowsLoop, hd]
    | ok row =>
      simp only [writeRowsLoop, hd]
      rcases List.mem_cons.mp hr' with rfl | hmem
      · exact absurd (dictToRow_ok_keys hd k hk) hk'
      · exact ih ⟨r', hmem, k, hk, hk'⟩ (content ++ [row])

lemma save_fresh (first : Rec) (rest : List Rec)
    (h : ∀ r ∈ first :: rest, ∀ k ∈ Rec.keys r, k ∈ Rec.keys first) :
    save_data_to_csv (first :: rest) none =
      (some (Rec.keys first :: (first :: rest).map (rowOf (Rec.keys first))), none) := by
  simp only [save_data_to_csv, Option.getD, Option.isSome]
  rw [writeRowsLoop_ok _ _ h]
  simp

lemma save_existing (first : Rec) (rest : List Rec) (c : CsvFile)
    (h : ∀ r ∈ first :: rest, ∀ k ∈ Rec.keys r, k ∈ Rec.keys first) :
    save_data_to_csv (first :: rest) (some c) =
      (some (c ++ (first :: rest).map (rowOf (Rec.keys first))), none) := by
  simp only [save_data_to_csv, Option.getD, Option.isSome]
  rw [writeRowsLoop_ok _ _ h]
  simp

lemma get_eq_none_of_not_mem {r : Rec} {k : String} (h : k ∉ Rec.keys r) :
    Rec.get r k = none := by
  unfold Rec.get
  rw [List.find?_eq_none.mpr]
  · rfl
  · intro p hp hbeq
    exact h (List.mem_map.mpr ⟨p, hp, by simpa using hbeq⟩)

lemma get_isSome_of_mem {r : Rec} {k : String} (h : k ∈ Rec.keys r) :
    ∃ v, Rec.get r k = some v := by
  unfold Rec.get
  rcases List.mem_map.mp h with ⟨p, hp, rfl⟩
  have hs : (List.find? (fun q => q.1 == p.1) r).isSome :=
    List.find?_isSome.mpr ⟨p, hp, by simp⟩
  rcases Option.isSome_iff_exists.mp hs with ⟨q, hq⟩
  exact ⟨q.2, by rw [hq]; rfl⟩

lemma get_zip_map (fns : List String) (f : String → String) (k : String) :
    Rec.get (fns.zip (fns.map f)) k = if k ∈ fns then some (f k) else none := by
  induction fns with
  | nil => simp [Rec.get]
  | cons a t ih =>
    by_cases hak : a = k
    · subst hak
      simp [Rec.get, List.find?_cons]
    · have hbeq : (a == k) = false := by simp [hak]
      simp only [List.map_cons, List.zip_cons_cons, Rec.get, List.find?_cons, hbeq]
      simp only [Rec.get] at ih
      rw [ih]
      simp [List.mem_cons, Ne.symm hak]

lemma zip_rowOf_eq_self (r : Rec) (hnd : (Rec.keys r).Nodup) :
    (Rec.keys r).zip (rowOf (Rec.keys r) r) = r := by
  induction r with
  | nil => rfl
  | cons p t ih =>
    obtain ⟨k0, v0⟩ := p
    have hk0 : Rec.get ((k0, v0) :: t) k0 = some v0 := by
      simp [Rec.get, List.find?_cons]
    have hnd' : (Rec.keys t).Nodup := (List.nodup_cons.mp hnd).2
    have hk0nm : k0 ∉ Rec.keys t := (List.nodup_cons.mp hnd).1
    have htail : (Rec.keys t).map (fun k => (Rec.get ((k0, v0) :: t) k).getD "") =
        (Rec.keys t).map (fun k => (Rec.get t k).getD "") := by
      apply List.map_congr_left
      intro k hkmem
      have hbeq : (k0 == k) = false := by
        simp
        intro hkk
        exact hk0nm (hkk ▸ hkmem)
      simp [Rec.get, List.find?_cons, hbeq]
    simp only [Rec.keys, List.map_cons, rowOf, hk0, Option.getD_some, List.zip_cons_cons]
    simp only [Rec.keys, rowOf] at htail ih
    rw [htail, ih hnd']

/-- The executable substring check agrees with `List.IsInfix`. -/
lemma charsContain_iff (needle hay : List Char) :
    charsContain needle hay = true ↔ needle <:+: hay := by
  induction hay with
  | nil =>
    simp [charsContain, List.isEmpty_iff]
  | cons c t ih =>
    simp [charsContain, List.isPrefixOf_iff_prefix, ih, List.infix_cons_iff]

/-! Claim theorems. -/

/-- C7: `load_data_from_csv` on a nonexistent destination returns the
empty sequence rather than failing. -/
theorem load_nonexistent_empty : (load_data_from_csv none).1 = [] := rfl

/-- C6: appending an empty Record Batch is a no-op for any destination
state — the file is unchanged, no exception is raised, and a subsequent
load returns exactly what it would have returned before. -/
theorem append_empty_noop (file : Option CsvFile) :
    save_data_to_csv [] file = (file, none) ∧
    (load_data_from_csv (save_data_to_csv [] file).1).1 = (load_data_from_csv file).1 :=
  ⟨rfl, rfl⟩

/-- C8: loading is read-only — it returns the destination state unchanged
— so two successive loads with no intervening append return identical
sequences. -/
theorem load_idempotent (file : Option CsvFile) :
    (load_data_from_csv file).2 = file ∧
    (load_data_from_csv (load_data_from_csv file).2).1 = (load_data_from_csv file).1 := by
  cases file with
  | none => exact ⟨rfl, rfl⟩
  | some c => cases c with
    | nil => exact ⟨rfl, rfl⟩
    | cons h t => exact ⟨rfl, rfl⟩

/-- C3: when the second generation call's output fails to parse as JSON,
the Extraction Pipeline yields the empty batch instead of raising — the
parse failure is swallowed by the `try`/`except` fallback. -/
theorem extraction_json_fallback (json_loads : String → Option Json) (s : String)
    (h : json_loads s = none) : parse_activities json_loads s = Json.arr [] := by
  simp [parse_activities, h]

/-- Witness for C3 at the concrete non-JSON output `"not json"`. -/
theorem extraction_json_fallback_witness :
    ((fun _ : String => (none : Option Json)) "not json" = none) ∧
    parse_activities (fun _ : String => (none : Option Json)) "not json" = Json.arr [] :=
  ⟨rfl, extraction_json_fallback _ _ rfl⟩

/-- C2: the Query Pipeline branches on substring containment of
`NEED_DATA_UPDATE` in the decision response: containment takes Branch A,
which reloads the persisted table and embeds it in the summarization
prompt; any other response takes Branch B, which embeds only the
in-memory batch from the last extraction run. -/
theorem react_branching (resp : String) (mem : Json) (fs : Option CsvFile) :
    (("NEED_DATA_UPDATE".data <:+: resp.data) →
      query_pipeline resp mem fs = (Branch.A, recordsToJson (load_data_from_csv fs).1)) ∧
    (¬ ("NEED_DATA_UPDATE".data <:+: resp.data) →
      query_pipeline resp mem fs = (Branch.B, mem)) := by
  constructor
  · intro h
    have hc : charsContain ("NEED_DATA_UPDATE".data) resp.data = true :=
      (charsContain_iff _ _).mpr h
    simp [query_pipeline, strContains, hc]
  · intro h
    have hc : charsContain ("NEED_DATA_UPDATE".data) resp.data = false := by
      rw [← Bool.not_eq_true]
      exact fun hcc => h ((charsContain_iff _ _).mp hcc)
    simp [query_pipeline, strContains, hc]

/-- Witness for C2: a response containing the token takes Branch A with
the reloaded table; the exact response `NO_UPDATE_NEEDED` takes Branch B
with the in-memory batch. -/
theorem react_branching_witness :
    query_pipeline "xxNEED_DATA_UPDATEyy" (Json.num 7) (some [["a"], ["1"]])
      = (Branch.A, recordsToJson (load_data_from_csv (some [["a"], ["1"]])).1) ∧
    query_pipeline "NO_UPDATE_NEEDED" (Json.num 7) (some [["a"], ["1"]])
      = (Branch.B, Json.num 7) :=
  ⟨(react_branching _ _ _).1 (by decide), (react_branching _ _ _).2 (by decide)⟩

/-- C10: when the second generation call returns text that IS valid JSON
but whose value is truthy and not a list, the parse fallback does not
fire — the value reaches `save_data_to_csv` unchanged, and the dynamic
field-name lookup (`data[0].keys()`) raises instead of degrading to an
empty batch. -/
theorem nonlist_json_fatal (json_loads : String → Option Json) (s : String) (v : Json)
    (cellStr : Json → String) (fs : Option CsvFile)
    (hparse : json_loads s = some v) (htruthy : v.truthy = true)
    (harr : v.isArr = false) :
    parse_activities json_loads s = v ∧
    (save_data_to_csv_dyn cellStr v fs).2 ≠ none := by
  refine ⟨by simp [parse_activities, hparse], ?_⟩
  cases v with
  | null => simp [Json.truthy] at htruthy
  | bool b =>
    cases b
    · simp [Json.truthy] at htruthy
    · simp [save_data_to_csv_dyn, Json.truthy, pyGetItemZero, pyKeys, Except.bind]
  | num n =>
    simp [save_data_to_csv_dyn, htruthy, pyGetItemZero, Except.bind]
  | str s' =>
    cases hs : s'.data with
    | nil =>
      simp [save_data_to_csv_dyn, htruthy, pyGetItemZero, hs, Except.bind]
    | cons c cs =>
      simp [save_data_to_csv_dyn, htruthy, pyGetItemZero, pyKeys, hs, Except.bind]
  | arr elems => simp [Json.isArr] at harr
  | obj entries =>
    simp [save_data_to_csv_dyn, htruthy, pyGetItemZero, Except.bind]

/-- Witness for C10 at the valid-JSON non-list value `5`. -/
theorem nonlist_json_fatal_witness :
    ((fun _ : String => some (Json.num 5)) "5" = some (Json.num 5)) ∧
    (Json.num 5).truthy = true ∧
    (Json.num 5).isArr = false ∧
    (parse_activities (fun _ : String => some (Json.num 5)) "5" = Json.num 5 ∧
      (save_data_to_csv_dyn (fun _ => "") (Json.num 5) none).2 ≠ none) :=
  ⟨rfl, rfl, rfl, nonlist_json_fatal _ _ _ _ _ rfl rfl rfl⟩

/-- C1 counterexample: the batch `[{}]` is non-empty, its records all
trivially share the first record's (empty) field set and have string
values, yet the reloaded table has length 0, not 1 — a record with no
fields is written as a blank line, and `csv.DictReader` skips blank
lines. -/
theorem save_then_load_roundtrip_cex :
    ([([] : Rec)] ≠ []) ∧
    (∀ r ∈ [([] : Rec)], (Rec.keys r).Perm (Rec.keys ([] : Rec))) ∧
    ((load_data_from_csv (save_data_to_csv [([] : Rec)] none).1).1).length ≠
      [([] : Rec)].length :=
  ⟨by decide, by decide, by decide⟩

/-- C1 (amended): for a non-empty Record Batch whose records all share the
first record's field set, with string values and the first record having
at least one field, `append` to a fresh destination followed by
`load_all` raises nothing and returns a sequence of the same length whose
rows agree with the written records on every field name (values as
strings, uncoerced). -/
theorem save_then_load_roundtrip (data : List Rec) (first : Rec) (rest : List Rec)
    (hdata : data = first :: rest)
    (hshare : ∀ r ∈ data, (Rec.keys r).Perm (Rec.keys first))
    (hne : Rec.keys first ≠ []) :
    (save_data_to_csv data none).2 = none ∧
    ((load_data_from_csv (save_data_to_csv data none).1).1).length = data.length ∧
    List.Forall₂ (fun r l => ∀ k, Rec.get l k = Rec.get r k) data
      (load_data_from_csv (save_data_to_csv data none).1).1 := by
  subst hdata
  have hsub : ∀ r ∈ first :: rest, ∀ k ∈ Rec.keys r, k ∈ Rec.keys first :=
    fun r hr k hk => ((hshare r hr).mem_iff).mp hk
  rw [save_fresh first rest hsub]
  have hfa : List.Forall₂ (fun r l => ∀ k, Rec.get l k = Rec.get r k) (first :: rest)
      (load_data_from_csv
        (some (Rec.keys first :: (first :: rest).map (rowOf (Rec.keys first))))).1 := by
    simp only [load_data_from_csv]
    rw [List.filter_eq_self.mpr ?rows_ne]
    case rows_ne =>
      intro a ha
      rcases List.mem_map.mp ha with ⟨r, hr, rfl⟩
      simp [rowOf, hne]
    rw [List.map_map, List.forall₂_map_right_iff, List.forall₂_same]
    intro r hr k
    have hperm := hshare r hr
    simp only [Function.comp, rowOf, get_zip_map]
    by_cases hk : k ∈ Rec.keys first
    · rcases get_isSome_of_mem (hperm.mem_iff.mpr hk) with ⟨v, hv⟩
      rw [if_pos hk, hv]
      rfl
    · rw [if_neg hk, get_eq_none_of_not_mem (fun hm => hk (hperm.mem_iff.mp hm))]
  exact ⟨rfl, hfa.length_eq.symm, hfa⟩

/-- Witness for C1 at a concrete two-record batch. -/
theorem save_then_load_roundtrip_witness :
    ([[("date", "d1"), ("title", "t1")], [("title", "t2"), ("date", "d2")]]
      = ([("date", "d1"), ("title", "t1")] : Rec) :: [[("title", "t2"), ("date", "d2")]]) ∧
    (∀ r ∈ [[("date", "d1"), ("title", "t1")], [("title", "t2"), ("date", "d2")]],
      (Rec.keys r).Perm (Rec.keys [("date", "d1"), ("title", "t1")])) ∧
    (Rec.keys [("date", "d1"), ("title", "t1")] ≠ []) ∧
    ((save_data_to_csv [[("date", "d1"), ("title", "t1")],
        [("title", "t2"), ("date", "d2")]] none).2 = none ∧
      ((load_data_from_csv (save_data_to_csv [[("date", "d1"), ("title", "t1")],
        [("title", "t2"), ("date", "d2")]] none).1).1).length =
        [[("date", "d1"), ("title", "t1")], [("title", "t2"), ("date", "d2")]].length ∧
      List.Forall₂ (fun r l => ∀ k, Rec.get l k = Rec.get r k)
        [[("date", "d1"), ("title", "t1")], [("title", "t2"), ("date", "d2")]]
        (load_data_from_csv (save_data_to_csv [[("date", "d1"), ("title", "t1")],
          [("title", "t2"), ("date", "d2")]] none).1).1) :=
  ⟨rfl, by decide, by decide,
    save_then_load_roundtrip _ _ _ rfl (by decide) (by decide)⟩

/-- C4: for a non-empty Record Batch (records drawing their keys from the
first record's field set, the Record Batch invariant), the first append
to a fresh destination writes the header derived from the first record's
field names followed by one row per record; an append to an existing
destination appends exactly the rows, leaving the existing content — its
header row included — untouched. -/
theorem append_header_once (data : List Rec) (first : Rec) (rest : List Rec)
    (c : CsvFile) (hdata : data = first :: rest)
    (hsub : ∀ r ∈ data, ∀ k ∈ Rec.keys r, k ∈ Rec.keys first) :
    save_data_to_csv data none =
      (some (Rec.keys first :: data.map (rowOf (Rec.keys first))), none) ∧
    save_data_to_csv data (some c) =
      (some (c ++ data.map (rowOf (Rec.keys first))), none) := by
  subst hdata
  exact ⟨save_fresh first rest hsub, save_existing first rest c hsub⟩

/-- Witness for C4 at a concrete batch and destination. -/
theorem append_header_once_witness :
    ([[("date", "d"), ("title", "t")], [("date", "e"), ("title", "f")]]
      = ([("date", "d"), ("title", "t")] : Rec) :: [[("date", "e"), ("title", "f")]]) ∧
    (∀ r ∈ [[("date", "d"), ("title", "t")], [("date", "e"), ("title", "f")]],
      ∀ k ∈ Rec.keys r, k ∈ Rec.keys [("date", "d"), ("title", "t")]) ∧
    (save_data_to_csv [[("date", "d"), ("title", "t")], [("date", "e"), ("title", "f")]]
        none =
      (some (Rec.keys [("date", "d"), ("title", "t")] ::
        [[("date", "d"), ("title", "t")], [("date", "e"), ("title", "f")]].map
          (rowOf (Rec.keys [("date", "d"), ("title", "t")]))), none) ∧
     save_data_to_csv [[("date", "d"), ("title", "t")], [("date", "e"), ("title", "f")]]
        (some [["date", "title"], ["x", "y"]]) =
      (some ([["date", "title"], ["x", "y"]] ++
        [[("date", "d"), ("title", "t")], [("date", "e"), ("title", "f")]].map
          (rowOf (Rec.keys [("date", "d"), ("title", "t")]))), none)) :=
  ⟨rfl, by decide, append_header_once _ _ _ _ rfl (by decide)⟩

/-- C5 counterexample: the batch `[{"b": "v", "a": "u"}]` has the same
field set as the header `a,b` of the existing table, yet after the append
the loaded second row maps `a` to `"v"` while the written record maps `a`
to `"u"` — `DictWriter` orders cells by the batch's own key order, and the
reader re-labels them with the header, swapping the values. -/
theorem append_only_extends_cex :
    ((Rec.keys [("b", "v"), ("a", "u")]).Perm ["a", "b"]) ∧
    ((load_data_from_csv
        (save_data_to_csv [[("b", "v"), ("a", "u")]]
          (some [["a", "b"], ["1", "2"]])).1).1 =
      [[("a", "1"), ("b", "2")], [("a", "v"), ("b", "u")]]) ∧
    Rec.get [("a", "v"), ("b", "u")] "a" ≠ Rec.get [("b", "v"), ("a", "u")] "a" :=
  ⟨by decide, by decide, by decide⟩

/-- C5 (amended): the store is append-only — for an existing table with a
non-empty, duplicate-free header and a non-empty batch whose records'
field-name sequence equals the header (same names in the same order),
`load_all` after `append` returns exactly the previously loadable rows,
unchanged and in order, followed by the batch's records; no existing row
is updated or deleted. -/
theorem append_only_extends (c : CsvFile) (header : List String)
    (rows0 : List (List String)) (hc : c = header :: rows0)
    (hhd : header.Nodup) (hne : header ≠ [])
    (data : List Rec) (first : Rec) (rest : List Rec) (hdata : data = first :: rest)
    (hkeys : ∀ r ∈ data, Rec.keys r = header) :
    (save_data_to_csv data (some c)).2 = none ∧
    (load_data_from_csv (save_data_to_csv data (some c)).1).1 =
      (load_data_from_csv (some c)).1 ++ data := by
  subst hdata hc
  have hfirst : Rec.keys first = header := hkeys first (List.mem_cons_self _ _)
  have hsub : ∀ r ∈ first :: rest, ∀ k ∈ Rec.keys r, k ∈ Rec.keys first := by
    intro r hr k hk
    rw [hfirst]
    rw [hkeys r hr] at hk
    exact hk
  rw [save_existing first rest _ hsub, hfirst, List.cons_append]
  refine ⟨rfl, ?_⟩
  simp only [load_data_from_csv]
  rw [List.filter_append, List.map_append]
  congr 1
  rw [List.filter_eq_self.mpr ?rows_ne]
  case rows_ne =>
    intro a ha
    rcases List.mem_map.mp ha with ⟨r, hr, rfl⟩
    simp [rowOf, hne]
  rw [List.map_map]
  have hzip : ∀ r ∈ first :: rest,
      ((fun row => header.zip row) ∘ rowOf header) r = id r := by
    intro r hr
    have hk := hkeys r hr
    simp only [Function.comp, id]
    rw [← hk]
    exact zip_rowOf_eq_self r (hk ▸ hhd)
  rw [List.map_congr_left hzip, List.map_id]

/-- Witness for C5 at a concrete table and batch. -/
theorem append_only_extends_witness :
    (([["a", "b"], ["1", "2"]] : CsvFile) = ["a", "b"] :: [["1", "2"]]) ∧
    (["a", "b"] : List String).Nodup ∧
    (["a", "b"] : List String) ≠ [] ∧
    ([[("a", "3"), ("b", "4")]] = ([("a", "3"), ("b", "4")] : Rec) :: []) ∧
    (∀ r ∈ [[("a", "3"), ("b", "4")]], Rec.keys r = ["a", "b"]) ∧
    ((save_data_to_csv [[("a", "3"), ("b", "4")]]
        (some [["a", "b"], ["1", "2"]])).2 = none ∧
      (load_data_from_csv (save_data_to_csv [[("a", "3"), ("b", "4")]]
          (some [["a", "b"], ["1", "2"]])).1).1 =
        (load_data_from_csv (some [["a", "b"], ["1", "2"]])).1 ++
          [[("a", "3"), ("b", "4")]]) :=
  ⟨rfl, by decide, by decide, rfl, by decide,
    append_only_extends _ _ _ rfl (by decide) (by decide) _ _ _ rfl (by decide)⟩

/-- C9: `append` derives the field set from the first record alone: a
later record holding a key outside that set makes the write raise
(`DictWriter`'s `extrasaction='raise'`), while a record merely missing
some of those keys is written silently, its absent fields as empty
cells (`restval=''`). -/
theorem first_record_fields_govern (data : List Rec) (first : Rec) (rest : List Rec)
    (file : Option CsvFile) (hdata : data = first :: rest) :
    ((∃ r ∈ data, ∃ k ∈ Rec.keys r, k ∉ Rec.keys first) →
      (save_data_to_csv data file).2 ≠ none) ∧
    ((∀ r ∈ data, ∀ k ∈ Rec.keys r, k ∈ Rec.keys first) →
      (save_data_to_csv data file).2 = none ∧
      (save_data_to_csv data file).1 =
        some ((match file with
                | none => [Rec.keys first]
                | some c => c) ++ data.map (rowOf (Rec.keys first)))) := by
  subst hdata
  constructor
  · intro hbad
    simp only [save_data_to_csv]
    exact writeRowsLoop_err (Rec.keys first) (first :: rest) hbad _
  · intro hgood
    cases file with
    | none =>
      rw [save_fresh first rest hgood]
      exact ⟨rfl, rfl⟩
    | some c =>
      rw [save_existing first rest c hgood]
      exact ⟨rfl, rfl⟩

/-- Witness for C9: a stray key `c` in the second record raises; a second
record missing `b` is written with an empty cell for it. -/
theorem first_record_fields_govern_witness :
    ([[("a", "1")], [("a", "2"), ("c", "3")]] = ([("a", "1")] : Rec) ::
      [[("a", "2"), ("c", "3")]]) ∧
    (∃ r ∈ [[("a", "1")], [("a", "2"), ("c", "3")]],
      ∃ k ∈ Rec.keys r, k ∉ Rec.keys [("a", "1")]) ∧
    (save_data_to_csv [[("a", "1")], [("a", "2"), ("c", "3")]] none).2 ≠ none ∧
    ([[("a", "1"), ("b", "2")], [("a", "3")]] = ([("a", "1"), ("b", "2")] : Rec) ::
      [[("a", "3")]]) ∧
    (∀ r ∈ [[("a", "1"), ("b", "2")], [("a", "3")]],
      ∀ k ∈ Rec.keys r, k ∈ Rec.keys [("a", "1"), ("b", "2")]) ∧
    ((save_data_to_csv [[("a", "1"), ("b", "2")], [("a", "3")]] none).2 = none ∧
      (save_data_to_csv [[("a", "1"), ("b", "2")], [("a", "3")]] none).1 =
        some ([Rec.keys [("a", "1"), ("b", "2")]] ++
          [[("a", "1"), ("b", "2")], [("a", "3")]].map
            (rowOf (Rec.keys [("a", "1"), ("b", "2")])))) :=
  ⟨rfl, by decide,
    (first_record_fields_govern [[("a", "1")], [("a", "2"), ("c", "3")]]
      [("a", "1")] [[("a", "2"), ("c", "3")]] none rfl).1 (by decide),
    rfl, by decide,
    (first_record_fields_govern [[("a", "1"), ("b", "2")], [("a", "3")]]
      [("a", "1"), ("b", "2")] [[("a", "3")]] none rfl).2 (by decide)⟩

end PersonalReminder
